import Mathlib

/-!
Verification of the OpenTitan EPMP configuration engine against its
natural-language specification.

Embedded source files:
 - `sw/device/silicon_creator/lib/epmp/epmp.c` (`epmp_state_check`)
 - `sw/device/silicon_creator/lib/epmp/test.c` (`epmp_unlock_test_status`)
 - `sw/device/lib/runtime/epmp.h` (types, enumerations and contracts; the
   matching implementation file is not part of the sources, so the four
   entry-configuration operations, the decoder and `epmp_check` are
   modelled from the specification, as marked on each definition)

Machine words are modelled as `Nat`; the operations only ever compare,
shift right, shift left or mask values, so no 2^32 wrap-around can occur.
-/

/-- Names of the control-and-status registers that the EPMP code touches:
16 `pmpaddr` registers, 4 `pmpcfg` registers, `mseccfg` and `mseccfgh`. -/
inductive csr_reg : Type
  | PMPADDR (i : Fin 16)
  | PMPCFG (i : Fin 4)
  | MSECCFG
  | MSECCFGH
deriving DecidableEq

/-- The live hardware register file: a value for every CSR. -/
def Csrs : Type := csr_reg → Nat

/-- `CSR_WRITE`: replace one register's value. -/
def csrWrite (c : Csrs) (r : csr_reg) (v : Nat) : Csrs :=
  Function.update c r v

/-- `CSR_SET_BITS`: OR a mask into one register. -/
def csrSetBits (c : Csrs) (r : csr_reg) (m : Nat) : Csrs :=
  Function.update c r (c r ||| m)

/-- Shadow EPMP state of the silicon-creator library
(`epmp_state_t` in `sw/device/silicon_creator/lib/epmp`): 16 address
registers, 4 packed 32-bit configuration registers and `mseccfg`,
exactly the fields read by `epmp_state_check` in `epmp.c`. -/
structure epmp_state_t : Type where
  pmpaddr : Fin 16 → Nat
  pmpcfg : Fin 4 → Nat
  mseccfg : Nat

/-- The CSRs read by `epmp_state_check`, in the order of the source:
`pmpaddr0..15`, `pmpcfg0..3`, `mseccfg`, `mseccfgh`. -/
def checkRegs : List csr_reg :=
  (List.finRange 16).map csr_reg.PMPADDR ++
  (List.finRange 4).map csr_reg.PMPCFG ++
  [csr_reg.MSECCFG, csr_reg.MSECCFGH]

/-- The value `epmp_state_check` compares each CSR against: the matching
field of the expected state, and the hardcoded 0 for `mseccfgh`. -/
def checkExpected (s : epmp_state_t) : csr_reg → Nat
  | csr_reg.PMPADDR i => s.pmpaddr i
  | csr_reg.PMPCFG i => s.pmpcfg i
  | csr_reg.MSECCFG => s.mseccfg
  | csr_reg.MSECCFGH => 0

/-- `epmp_state_check` from `epmp.c`: starting from `result = true`, for
each CSR in `checkRegs` perform `CSR_READ` and `result &= csr == value`
(a non-short-circuiting accumulation), then return `result`. -/
def epmp_state_check (s : epmp_state_t) (c : Csrs) : Bool :=
  checkRegs.foldl (fun result r => result && (c r == checkExpected s r)) true

/-- `epmp_state_check` instrumented with the list of CSR reads it
performs, mirroring the sequential expansion of the `CHECK_CSR` macro:
each step reads one register and folds the comparison into `result`. -/
def epmp_state_check_trace (s : epmp_state_t) (c : Csrs) :
    Bool × List csr_reg :=
  checkRegs.foldl
    (fun acc r => (acc.1 && (c r == checkExpected s r), acc.2 ++ [r]))
    (true, [])

section CheckLemmas

theorem foldl_and_eq_all (f : csr_reg → Bool) :
    ∀ (l : List csr_reg) (b : Bool),
      l.foldl (fun result r => result && f r) b = (b && l.all f) := by
  intro l
  induction l with
  | nil => intro b; simp
  | cons x xs ih =>
    intro b
    simp only [List.foldl_cons, List.all_cons, ih, Bool.and_assoc]

theorem every_reg_mem_checkRegs (r : csr_reg) : r ∈ checkRegs := by
  cases r with
  | PMPADDR i =>
    simp [checkRegs, List.mem_append, List.mem_map]
  | PMPCFG i =>
    simp [checkRegs, List.mem_append, List.mem_map]
  | MSECCFG => simp [checkRegs]
  | MSECCFGH => simp [checkRegs]

theorem epmp_state_check_eq_all (s : epmp_state_t) (c : Csrs) :
    epmp_state_check s c = checkRegs.all (fun r => c r == checkExpected s r) := by
  unfold epmp_state_check
  rw [foldl_and_eq_all]
  simp

theorem epmp_state_check_true_iff (s : epmp_state_t) (c : Csrs) :
    epmp_state_check s c = true ↔ ∀ r : csr_reg, c r = checkExpected s r := by
  rw [epmp_state_check_eq_all, List.all_eq_true]
  constructor
  · intro h r
    have := h r (every_reg_mem_checkRegs r)
    exact of_decide_eq_true this
  · intro h r _
    exact decide_eq_true (h r)

end CheckLemmas

/-! ## Runtime EPMP entry codec (`sw/device/lib/runtime/epmp.h`)

The header declares the types, enumerations and contracts; its
implementation file is not among the sources, so the configuration and
decode operations below are modelled from the specification. -/

/-- `kEpmpGranularity` from `epmp.h` (`epmp_constants_t`). -/
def kEpmpGranularity : Nat := 0

/-- `kEpmpNumRegions` from `epmp.h` (`epmp_constants_t`). -/
def kEpmpNumRegions : Nat := 16

/-- PMP address registers hold the byte address shifted right by 2. -/
def addrShift : Nat := 2

/-- `epmp_permissions_t` from `epmp.h`: the twelve representable
lock/permission combinations. -/
inductive epmp_permissions_t : Type
  | kEpmpPermissionsUnlockedMachineAllUserNone
  | kEpmpPermissionsUnlockedMachineAllUserExecute
  | kEpmpPermissionsUnlockedMachineAllUserRead
  | kEpmpPermissionsUnlockedMachineAllUserReadExecute
  | kEpmpPermissionsUnlockedMachineAllUserReadWrite
  | kEpmpPermissionsUnlockedMachineAllUserAll
  | kEpmpPermissionsLockedMachineNoneUserNone
  | kEpmpPermissionsLockedMachineExecuteUserExecute
  | kEpmpPermissionsLockedMachineReadUserRead
  | kEpmpPermissionsLockedMachineReadExecuteUserReadExecute
  | kEpmpPermissionsLockedMachineReadWriteUserReadWrite
  | kEpmpPermissionsLockedMachineAllUserAll
deriving DecidableEq, Fintype

/-- The documented `LRWX` nibble of each permission (L = bit 3, R = bit 2,
W = bit 1, X = bit 0), exactly as in the `epmp_permissions_t` comments. -/
def permLRWX : epmp_permissions_t → Nat
  | .kEpmpPermissionsUnlockedMachineAllUserNone => 0x0
  | .kEpmpPermissionsUnlockedMachineAllUserExecute => 0x1
  | .kEpmpPermissionsUnlockedMachineAllUserRead => 0x4
  | .kEpmpPermissionsUnlockedMachineAllUserReadExecute => 0x5
  | .kEpmpPermissionsUnlockedMachineAllUserReadWrite => 0x6
  | .kEpmpPermissionsUnlockedMachineAllUserAll => 0x7
  | .kEpmpPermissionsLockedMachineNoneUserNone => 0x8
  | .kEpmpPermissionsLockedMachineExecuteUserExecute => 0x9
  | .kEpmpPermissionsLockedMachineReadUserRead => 0xc
  | .kEpmpPermissionsLockedMachineReadExecuteUserReadExecute => 0xd
  | .kEpmpPermissionsLockedMachineReadWriteUserReadWrite => 0xe
  | .kEpmpPermissionsLockedMachineAllUserAll => 0xf

/-- Recover a permission from its `LRWX` nibble; the four combinations the
hardware reserves (W set without R) are unrepresentable. -/
def ofLRWX : Nat → Option epmp_permissions_t
  | 0x0 => some .kEpmpPermissionsUnlockedMachineAllUserNone
  | 0x1 => some .kEpmpPermissionsUnlockedMachineAllUserExecute
  | 0x4 => some .kEpmpPermissionsUnlockedMachineAllUserRead
  | 0x5 => some .kEpmpPermissionsUnlockedMachineAllUserReadExecute
  | 0x6 => some .kEpmpPermissionsUnlockedMachineAllUserReadWrite
  | 0x7 => some .kEpmpPermissionsUnlockedMachineAllUserAll
  | 0x8 => some .kEpmpPermissionsLockedMachineNoneUserNone
  | 0x9 => some .kEpmpPermissionsLockedMachineExecuteUserExecute
  | 0xc => some .kEpmpPermissionsLockedMachineReadUserRead
  | 0xd => some .kEpmpPermissionsLockedMachineReadExecuteUserReadExecute
  | 0xe => some .kEpmpPermissionsLockedMachineReadWriteUserReadWrite
  | 0xf => some .kEpmpPermissionsLockedMachineAllUserAll
  | _ => none

/-- Modelled from the spec: pack one configuration byte from an
addressing mode and a permission. The config-byte layout is the hardware
contract: R = bit 0, W = bit 1, X = bit 2, addressing mode = bits 3-4,
lock = bit 7. -/
def cfgByte (mode : Nat) (p : epmp_permissions_t) : Nat :=
  let n := permLRWX p
  (((n >>> 3) &&& 1) <<< 7) ||| (mode <<< 3) |||
    (((n >>> 2) &&& 1) ||| ((n &&& 2)) ||| ((n &&& 1) <<< 2))

/-- Unpack the addressing mode (bits 3-4) from a configuration byte. -/
def cfgMode (b : Nat) : Nat := (b >>> 3) &&& 3

/-- Unpack the `LRWX` nibble from a configuration byte. -/
def cfgLRWX (b : Nat) : Nat :=
  (((b >>> 7) &&& 1) <<< 3) ||| ((b &&& 1) <<< 2) ||| (b &&& 2) ||| ((b >>> 2) &&& 1)

/-- `epmp_region_t` from `epmp.h`: a half-open byte range. -/
structure epmp_region_t : Type where
  start : Nat
  «end» : Nat
deriving DecidableEq

/-- `epmp_state_t` from the runtime `epmp.h`: sixteen per-entry
configuration bytes and sixteen address values. -/
structure rt_epmp_state_t : Type where
  pmpcfg : Fin 16 → Nat
  pmpaddr : Fin 16 → Nat

/-- `epmp_entry_configure_result_t` from `epmp.h`. -/
inductive epmp_entry_configure_result_t : Type
  | Ok
  | Error
  | BadArg
  | BadRegion
  | Conflict
deriving DecidableEq

/-- Modelled from the spec: `epmp_entry_configure_off`. Requires
`region.start == region.end` (else `BadRegion`); writes the shifted
start address and mode = OFF with the chosen permission. -/
def epmp_entry_configure_off (s : rt_epmp_state_t) (entry : Nat)
    (r : epmp_region_t) (p : epmp_permissions_t) :
    epmp_entry_configure_result_t × rt_epmp_state_t :=
  if h : kEpmpNumRegions ≤ entry then (.BadArg, s)
  else
    let e : Fin 16 := ⟨entry, by simp [kEpmpNumRegions] at h; omega⟩
    if r.start = r.«end» then
      (.Ok, { s with
        pmpaddr := Function.update s.pmpaddr e (r.start >>> addrShift),
        pmpcfg := Function.update s.pmpcfg e (cfgByte 0 p) })
    else (.BadRegion, s)

/-- Modelled from the spec: `epmp_entry_configure_tor`. Writes
`region.end` (shifted) into `entry`'s address slot with mode = TOR;
writes `region.start` into the preceding entry's address slot when that
entry is OFF (keeping its configuration byte); if the preceding entry is
TOR its stored address must equal the shifted `region.start`; entry 0
requires `region.start = 0`; every other relationship is a `Conflict`. -/
def epmp_entry_configure_tor (s : rt_epmp_state_t) (entry : Nat)
    (r : epmp_region_t) (p : epmp_permissions_t) :
    epmp_entry_configure_result_t × rt_epmp_state_t :=
  if h : kEpmpNumRegions ≤ entry then (.BadArg, s)
  else
    let e : Fin 16 := ⟨entry, by simp [kEpmpNumRegions] at h; omega⟩
    if h0 : entry = 0 then
      if r.start = 0 then
        (.Ok, { s with
          pmpaddr := Function.update s.pmpaddr e (r.«end» >>> addrShift),
          pmpcfg := Function.update s.pmpcfg e (cfgByte 1 p) })
      else (.Conflict, s)
    else
      let pre : Fin 16 := ⟨entry - 1, by simp [kEpmpNumRegions] at h; omega⟩
      if cfgMode (s.pmpcfg pre) = 0 then
        (.Ok, { s with
          pmpaddr := Function.update
            (Function.update s.pmpaddr pre (r.start >>> addrShift)) e
            (r.«end» >>> addrShift),
          pmpcfg := Function.update s.pmpcfg e (cfgByte 1 p) })
      else if cfgMode (s.pmpcfg pre) = 1 then
        if s.pmpaddr pre = r.start >>> addrShift then
          (.Ok, { s with
            pmpaddr := Function.update s.pmpaddr e (r.«end» >>> addrShift),
            pmpcfg := Function.update s.pmpcfg e (cfgByte 1 p) })
        else (.Conflict, s)
      else (.Conflict, s)

/-- Modelled from the spec: `epmp_entry_configure_na4`. Requires
granularity 0 and a region of length exactly four (else `BadRegion`);
writes the shifted start address and mode = NA4. -/
def epmp_entry_configure_na4 (s : rt_epmp_state_t) (entry : Nat)
    (r : epmp_region_t) (p : epmp_permissions_t) :
    epmp_entry_configure_result_t × rt_epmp_state_t :=
  if h : kEpmpNumRegions ≤ entry then (.BadArg, s)
  else if 0 < kEpmpGranularity then (.BadRegion, s)
  else
    let e : Fin 16 := ⟨entry, by simp [kEpmpNumRegions] at h; omega⟩
    if r.«end» - r.start = 4 then
      (.Ok, { s with
        pmpaddr := Function.update s.pmpaddr e (r.start >>> addrShift),
        pmpcfg := Function.update s.pmpcfg e (cfgByte 2 p) })
    else (.BadRegion, s)

/-- Count of consecutive one-bits at the bottom of `n`. -/
def trailingOnes (n : Nat) : Nat :=
  if h : n % 2 = 1 then trailingOnes (n / 2) + 1 else 0
termination_by n
decreasing_by omega

/-- `true` exactly when `n` is a power of two. -/
def isPow2 (n : Nat) : Bool :=
  n != 0 && 2 ^ Nat.log2 n == n

/-- Modelled from the spec: the region test of
`epmp_entry_configure_napot`. The span must be a power of two of at
least eight bytes, `start` and `end` must both be aligned to the span,
and, when the granularity is nonzero, additionally aligned to
`2 ^ (2 + kEpmpGranularity)`. -/
def napot_region_ok (r : epmp_region_t) : Bool :=
  let size := r.«end» - r.start
  decide (8 ≤ size) && isPow2 size &&
    (r.start % size == 0) && (r.«end» % size == 0) &&
    (kEpmpGranularity == 0 ||
      ((r.start % 2 ^ (2 + kEpmpGranularity) == 0) &&
       (r.«end» % 2 ^ (2 + kEpmpGranularity) == 0)))

/-- Modelled from the spec: `epmp_entry_configure_napot`. Rejects regions
failing `napot_region_ok` with `BadRegion`; otherwise encodes the
address slot as `(start >> shift) | onesmask` where the ones mask has
`log2 span - 3` trailing one-bits, with mode = NAPOT. -/
def epmp_entry_configure_napot (s : rt_epmp_state_t) (entry : Nat)
    (r : epmp_region_t) (p : epmp_permissions_t) :
    epmp_entry_configure_result_t × rt_epmp_state_t :=
  if h : kEpmpNumRegions ≤ entry then (.BadArg, s)
  else if napot_region_ok r then
    let e : Fin 16 := ⟨entry, by simp [kEpmpNumRegions] at h; omega⟩
    (.Ok, { s with
      pmpaddr := Function.update s.pmpaddr e
        ((r.start >>> addrShift) ||| ((r.«end» - r.start) / 8 - 1)),
      pmpcfg := Function.update s.pmpcfg e (cfgByte 3 p) })
  else (.BadRegion, s)

/-- Modelled from the spec: `epmp_entry_decode`, the exact inverse of the
configuration operations. For a TOR entry the preceding entry's address
is the lower bound (0 for entry 0); for NA4/NAPOT `start` and `end` are
recovered from the stored trailing one-bits run; for OFF the result is a
zero-length region at the stored address. -/
def epmp_entry_decode (s : rt_epmp_state_t) (entry : Nat) :
    Option (epmp_region_t × epmp_permissions_t) :=
  if h : kEpmpNumRegions ≤ entry then none
  else
    let e : Fin 16 := ⟨entry, by simp [kEpmpNumRegions] at h; omega⟩
    match ofLRWX (cfgLRWX (s.pmpcfg e)) with
    | none => none
    | some p =>
      let a := s.pmpaddr e
      let mode := cfgMode (s.pmpcfg e)
      if mode = 0 then
        some ({ start := a <<< 2, «end» := a <<< 2 }, p)
      else if mode = 1 then
        let lo : Nat :=
          if h0 : entry = 0 then 0
          else s.pmpaddr ⟨entry - 1, by simp [kEpmpNumRegions] at h; omega⟩
        some ({ start := lo <<< 2, «end» := a <<< 2 }, p)
      else if mode = 2 then
        some ({ start := a <<< 2, «end» := (a <<< 2) + 4 }, p)
      else
        let t := trailingOnes a
        let base := ((a >>> (t + 1)) <<< (t + 1))
        some ({ start := base <<< 2, «end» := (base <<< 2) + (1 <<< (t + 3)) }, p)

/-! ## Numeric status codes (`epmp.h` enumerations)

The C enumerations assign concrete integer codes; these definitions
record the values fixed by the header. -/

/-- `kEpmpOk` from `epmp_result_t`. -/
def kEpmpOk : Nat := 0

/-- `kEpmpError` from `epmp_result_t` (follows `kEpmpOk`). -/
def kEpmpError : Nat := kEpmpOk + 1

/-- `kEpmpBadArg` from `epmp_result_t` (follows `kEpmpError`). -/
def kEpmpBadArg : Nat := kEpmpError + 1

/-- `kEpmpRegionConfigureOk` from `epmp_entry_configure_result_t`. -/
def kEpmpRegionConfigureOk : Nat := kEpmpOk

/-- `kEpmpRegionConfigureError` from `epmp_entry_configure_result_t`. -/
def kEpmpRegionConfigureError : Nat := kEpmpError

/-- `kEpmpRegionConfigureBadArg` from `epmp_entry_configure_result_t`. -/
def kEpmpRegionConfigureBadArg : Nat := kEpmpBadArg

/-- `kEpmpRegionConfigureBadRegion`: the next enumerator after
`kEpmpRegionConfigureBadArg`. -/
def kEpmpRegionConfigureBadRegion : Nat := kEpmpRegionConfigureBadArg + 1

/-- `kEpmpRegionConfigureConflict`: the next enumerator after
`kEpmpRegionConfigureBadRegion`. -/
def kEpmpRegionConfigureConflict : Nat := kEpmpRegionConfigureBadRegion + 1

/-- `kEpmpSetOk` from `epmp_set_result_t`. -/
def kEpmpSetOk : Nat := kEpmpOk

/-- `kEpmpSetError` from `epmp_set_result_t`. -/
def kEpmpSetError : Nat := kEpmpError

/-- `kEpmpSetBadArg` from `epmp_set_result_t`. -/
def kEpmpSetBadArg : Nat := kEpmpBadArg

/-- `kEpmpSetMismatch`: the next enumerator after `kEpmpSetBadArg`. -/
def kEpmpSetMismatch : Nat := kEpmpSetBadArg + 1

/-! ## Machine security configuration bits -/

/-- Modelled from the spec: `mseccfg.MML` (machine-mode lockdown), the
lowest bit of `mseccfg` in the referenced ePMP draft. -/
def EPMP_MSECCFG_MML : Nat := 0

/-- Modelled from the spec: `mseccfg.MMWP` (machine-mode whitelist
policy), bit 1 of `mseccfg`. -/
def EPMP_MSECCFG_MMWP : Nat := 1

/-- Modelled from the spec: `mseccfg.RLB` (rule-locking bypass), bit 2 of
`mseccfg`. -/
def EPMP_MSECCFG_RLB : Nat := 2

/-- The packed 32-bit `pmpcfg` register `i` of the runtime state: the
four per-entry configuration bytes `4i .. 4i+3`, low byte first. -/
def rt_cfg_word (s : rt_epmp_state_t) (i : Fin 4) : Nat :=
  s.pmpcfg ⟨4 * i.val, by omega⟩ +
  (s.pmpcfg ⟨4 * i.val + 1, by omega⟩ <<< 8) +
  (s.pmpcfg ⟨4 * i.val + 2, by omega⟩ <<< 16) +
  (s.pmpcfg ⟨4 * i.val + 3, by omega⟩ <<< 24)

/-- Modelled from the spec: `epmp_check` of the runtime `epmp.h`. Reads
the `pmpaddr` and `pmpcfg` CSRs and compares them with `state`; reads
`mseccfg` and checks that `mseccfg.RLB = 1`, `mseccfg.MLL = 0` and
`mseccfg.MMWP = 1` — fixed required values independent of `state`.
Returns `kEpmpOk` when everything holds and `kEpmpError` otherwise. -/
def epmp_check (s : rt_epmp_state_t) (c : Csrs) : Nat :=
  let addrs_ok := (List.finRange 16).all
    (fun i => c (csr_reg.PMPADDR i) == s.pmpaddr i)
  let cfgs_ok := (List.finRange 4).all
    (fun i => c (csr_reg.PMPCFG i) == rt_cfg_word s i)
  let m := c csr_reg.MSECCFG
  let mseccfg_ok := Nat.testBit m EPMP_MSECCFG_RLB &&
    !Nat.testBit m EPMP_MSECCFG_MML && Nat.testBit m EPMP_MSECCFG_MMWP
  if addrs_ok && cfgs_ok && mseccfg_ok then kEpmpOk else kEpmpError

/-! ## Silicon-creator EPMP library (`epmp.c`, `test.c`) -/

/-- Modelled from the spec: lock bit of a packed configuration byte
(bit 7 of `pmpcfg`), from the missing silicon-creator `epmp.h`. -/
def EPMP_CFG_L : Nat := 0x80

/-- Modelled from the spec: read bit of a packed configuration byte. -/
def EPMP_CFG_R : Nat := 0x1

/-- Modelled from the spec: write bit of a packed configuration byte. -/
def EPMP_CFG_W : Nat := 0x2

/-- Modelled from the spec: `kEpmpModeNa4`, the NA4 addressing mode
(value 2) already placed in the mode field, bits 3-4. -/
def kEpmpModeNa4 : Nat := 2 <<< 3

/-- Modelled from the spec: `kEpmpPermLockedReadWrite`, the locked
read-write permission used by `epmp_unlock_test_status`. -/
def kEpmpPermLockedReadWrite : Nat := EPMP_CFG_L ||| EPMP_CFG_R ||| EPMP_CFG_W

/-- Replace byte `k` (0-3, counted from the least significant end) of a
packed 32-bit configuration register with `b`. -/
def setCfgByte (w : Nat) (k : Nat) (b : Nat) : Nat :=
  (w % 2 ^ (8 * k)) + (b <<< (8 * k)) + ((w >>> (8 * (k + 1))) <<< (8 * (k + 1)))

/-- Modelled from the spec: `epmp_state_configure_na4` of the
silicon-creator library (declared in `epmp.c`, body in the missing
`epmp.h`). Stores the shifted start address in the entry's `pmpaddr`
slot and `NA4-mode | perm` in the entry's byte of the packed `pmpcfg`
word; it returns nothing and performs no validation. -/
def epmp_state_configure_na4 (s : epmp_state_t) (entry : Fin 16)
    (r : epmp_region_t) (perm : Nat) : epmp_state_t :=
  let word : Fin 4 := ⟨entry.val / 4, by have := entry.isLt; omega⟩
  { s with
    pmpaddr := Function.update s.pmpaddr entry (r.start >>> 2),
    pmpcfg := Function.update s.pmpcfg word
      (setCfgByte (s.pmpcfg word) (entry.val % 4) (kEpmpModeNa4 ||| perm)) }

/-- One hardware mutation performed through the CSR collaborator. -/
inductive csr_op : Type
  | write (r : csr_reg) (v : Nat)
  | setBits (r : csr_reg) (m : Nat)
deriving DecidableEq

/-- `epmp_unlock_test_status` from `test.c`, parameterized by
`kDeviceTestStatusAddress` (an external device constant). Returns the
`bool` result, the updated shadow state, the updated register file, and
the ordered list of CSR mutations performed. Mirrors the source: reject
a non-word-aligned address; configure NA4 on the dedicated entry 6 of
the shadow state when one is provided; `CSR_WRITE` the address register,
then `CSR_SET_BITS` the configuration byte; finally re-check the shadow
state against the registers. -/
def epmp_unlock_test_status (addr : Nat) (st : Option epmp_state_t)
    (c : Csrs) : Bool × Option epmp_state_t × Csrs × List csr_op :=
  if addr % 4 ≠ 0 then (false, st, c, [])
  else
    let region : epmp_region_t := { start := addr, «end» := addr + 4 }
    let st1 : Option epmp_state_t :=
      match st with
      | some s =>
        some (epmp_state_configure_na4 s 6 region kEpmpPermLockedReadWrite)
      | none => none
    let c1 := csrWrite c (csr_reg.PMPADDR 6) (addr / 4)
    let mask := (kEpmpModeNa4 ||| kEpmpPermLockedReadWrite) <<< ((6 % 4) * 8)
    let c2 := csrSetBits c1 (csr_reg.PMPCFG 1) mask
    let ops := [csr_op.write (csr_reg.PMPADDR 6) (addr / 4),
                csr_op.setBits (csr_reg.PMPCFG 1) mask]
    match st1 with
    | some s1 => (epmp_state_check s1 c2, st1, c2, ops)
    | none => (true, none, c2, ops)

/-! ## Arithmetic helper lemmas -/

theorem two_pow_mul_lor_eq_add (t m b : Nat) (hb : b < 2 ^ t) :
    (2 ^ t * m) ||| b = 2 ^ t * m + b := by
  apply Nat.eq_of_testBit_eq
  intro i
  rw [Nat.testBit_lor]
  rcases Nat.lt_or_ge i t with hi | hi
  · have hsplit : 2 ^ t = 2 ^ i * 2 ^ (t - i) := by
      rw [← pow_add]
      congr 1
      omega
    have hpos : 0 < 2 ^ i := Nat.pos_pow_of_pos i (by norm_num)
    have heven : 2 ^ (t - i) * m % 2 = 0 := by
      have h2 : 2 ^ (t - i) = 2 * 2 ^ (t - i - 1) := by
        rw [← pow_succ']
        congr 1
        omega
      rw [h2, Nat.mul_assoc, Nat.mul_mod_right]
    have h1 : Nat.testBit (2 ^ t * m) i = false := by
      rw [Nat.testBit_to_div_mod]
      rw [hsplit, Nat.mul_assoc, Nat.mul_div_cancel_left _ hpos]
      simp [heven]
    have h2 : Nat.testBit (2 ^ t * m + b) i = Nat.testBit b i := by
      rw [Nat.testBit_to_div_mod, Nat.testBit_to_div_mod]
      rw [hsplit, Nat.mul_assoc, Nat.mul_add_div hpos]
      rw [Nat.add_mod, heven]
      simp
    rw [h1, h2]
    simp
  · have h3 : Nat.testBit b i = false := by
      apply Nat.testBit_lt_two_pow
      calc b < 2 ^ t := hb
        _ ≤ 2 ^ i := Nat.pow_le_pow_right (by norm_num) hi
    have hsplit : 2 ^ i = 2 ^ t * 2 ^ (i - t) := by
      rw [← pow_add]
      congr 1
      omega
    have htpos : 0 < 2 ^ t := Nat.pos_pow_of_pos t (by norm_num)
    have h4 : Nat.testBit (2 ^ t * m + b) i = Nat.testBit (2 ^ t * m) i := by
      rw [Nat.testBit_to_div_mod, Nat.testBit_to_div_mod]
      rw [hsplit, ← Nat.div_div_eq_div_mul, ← Nat.div_div_eq_div_mul]
      rw [Nat.mul_add_div htpos, Nat.div_eq_of_lt hb,
        Nat.mul_div_cancel_left _ htpos]
      simp
    rw [h3, h4]
    simp

theorem trailingOnes_two_pow_mul_add (j : Nat) :
    ∀ m : Nat, trailingOnes (2 ^ (j + 1) * m + (2 ^ j - 1)) = j := by
  induction j with
  | zero =>
    intro m
    have h0 : 2 ^ (0 + 1) * m + (2 ^ 0 - 1) = 2 * m := by norm_num
    rw [h0]
    unfold trailingOnes
    rw [dif_neg]
    omega
  | succ j ih =>
    intro m
    have e1 : 2 ^ (j + 1 + 1) * m = 4 * (2 ^ j * m) := by rw [pow_add]; ring
    have e2 : 2 ^ (j + 1) * m = 2 * (2 ^ j * m) := by rw [pow_add]; ring
    have e3 : 2 ^ (j + 1) = 2 * 2 ^ j := by rw [pow_succ]; ring
    have hP : 1 ≤ 2 ^ j := Nat.one_le_two_pow
    have l1 : 2 ^ (j + 1 + 1) * m + (2 ^ (j + 1) - 1) =
        2 * (2 ^ (j + 1) * m + (2 ^ j - 1)) + 1 := by
      rw [e1, e2, e3]
      omega
    rw [l1]
    unfold trailingOnes
    rw [dif_pos (by omega)]
    have l2 : (2 * (2 ^ (j + 1) * m + (2 ^ j - 1)) + 1) / 2 =
        2 ^ (j + 1) * m + (2 ^ j - 1) := by omega
    rw [l2, ih m]

/-! ## Concrete states used as witnesses and counterexamples -/

/-- The all-zero silicon-creator shadow state. -/
def stZero : epmp_state_t :=
  { pmpaddr := fun _ => 0, pmpcfg := fun _ => 0, mseccfg := 0 }

/-- The all-zero register file. -/
def csrZero : Csrs := fun _ => 0

/-- The all-zero runtime codec state. -/
def rtZero : rt_epmp_state_t :=
  { pmpcfg := fun _ => 0, pmpaddr := fun _ => 0 }

/-- A register file that is all zero except the three mandatory
`mseccfg` bits `RLB = 1`, `MML = 0`, `MMWP = 1` (value `0b110`). -/
def csrFixedBits : Csrs := fun r =>
  match r with
  | csr_reg.MSECCFG => 6
  | _ => 0

/-- A register file disagreeing with `stZero` in exactly one register. -/
def csrBad : Csrs := fun r =>
  if r = csr_reg.PMPADDR 0 then 1 else 0

/-! ## Claim C3 -/

/-- C3: `epmp_state_check` succeeds exactly when all 16 `pmpaddr`
registers, all 4 `pmpcfg` registers and `mseccfg` read back equal to the
corresponding fields of the expected state and `mseccfgh` reads back as
exactly zero; changing any one of these registers to any other value
makes it fail. -/
theorem epmp_state_check_iff_exact_match (s : epmp_state_t) (c : Csrs) :
    (epmp_state_check s c = true ↔
      (∀ i : Fin 16, c (csr_reg.PMPADDR i) = s.pmpaddr i) ∧
      (∀ i : Fin 4, c (csr_reg.PMPCFG i) = s.pmpcfg i) ∧
      c csr_reg.MSECCFG = s.mseccfg ∧
      c csr_reg.MSECCFGH = 0) ∧
    (∀ (r : csr_reg) (v : Nat), v ≠ checkExpected s r →
      epmp_state_check s (Function.update c r v) = false) := by
  constructor
  · rw [epmp_state_check_true_iff]
    constructor
    · intro h
      exact ⟨fun i => h (csr_reg.PMPADDR i), fun i => h (csr_reg.PMPCFG i),
        h csr_reg.MSECCFG, h csr_reg.MSECCFGH⟩
    · rintro ⟨h1, h2, h3, h4⟩ r
      cases r with
      | PMPADDR i => exact h1 i
      | PMPCFG i => exact h2 i
      | MSECCFG => exact h3
      | MSECCFGH => exact h4
  · intro r v hv
    cases hcheck : epmp_state_check s (Function.update c r v) with
    | false => rfl
    | true =>
      exfalso
      have hr := (epmp_state_check_true_iff s _).mp hcheck r
      rw [Function.update_same] at hr
      exact hv hr

/-- Witness for C3 at concrete inputs: the unmodified zero readback
passes and flipping `mseccfgh` to 5 fails. -/
theorem epmp_state_check_iff_exact_match_witness :
    epmp_state_check stZero csrZero = true ∧
    epmp_state_check stZero (Function.update csrZero csr_reg.MSECCFGH 5) =
      false :=
  ⟨by decide,
   (epmp_state_check_iff_exact_match stZero csrZero).2 csr_reg.MSECCFGH 5
     (by decide)⟩

/-! ## Claim C10 -/

theorem foldl_and_with_trace (f : csr_reg → Bool) :
    ∀ (l : List csr_reg) (b : Bool) (acc : List csr_reg),
      l.foldl (fun a r => (a.1 && f r, a.2 ++ [r])) (b, acc) =
        (l.foldl (fun x r => x && f r) b, acc ++ l) := by
  intro l
  induction l with
  | nil => intro b acc; simp
  | cons x xs ih =>
    intro b acc
    rw [List.foldl_cons, List.foldl_cons, ih]
    simp

/-- C10: `epmp_state_check` reads all 22 registers it checks, in source
order, regardless of the register values (so regardless of whether an
earlier comparison already failed), and its result is the conjunction of
the individual equality comparisons. The expected state is consumed
read-only (it is a plain value on the Lean side, matching the `const`
pointer in the source). -/
theorem epmp_state_check_reads_everything (s : epmp_state_t) (c : Csrs) :
    (epmp_state_check_trace s c).2 = checkRegs ∧
    (epmp_state_check_trace s c).1 = epmp_state_check s c ∧
    epmp_state_check s c =
      checkRegs.all (fun r => c r == checkExpected s r) := by
  have h := foldl_and_with_trace (fun r => c r == checkExpected s r)
    checkRegs true []
  unfold epmp_state_check_trace
  rw [h]
  refine ⟨by simp, rfl, epmp_state_check_eq_all s c⟩

/-! ## Claim C1 -/

/-- C1 counterexample: with an expected state whose `mseccfg` field is 0
and live registers all zero, `epmp_state_check` succeeds even though
`mseccfg.RLB = 0` and `mseccfg.MMWP = 0`; the check therefore does not
assert the fixed security-bit values independently of the expected
state. -/
theorem epmp_state_check_passes_without_fixed_bits :
    epmp_state_check stZero csrZero = true ∧
    Nat.testBit (csrZero csr_reg.MSECCFG) EPMP_MSECCFG_RLB = false ∧
    Nat.testBit (csrZero csr_reg.MSECCFG) EPMP_MSECCFG_MMWP = false := by
  decide

/-- C1 amended: the runtime `epmp_check` asserts the fixed values
`mseccfg.RLB = 1`, `mseccfg.MLL = 0`, `mseccfg.MMWP = 1` regardless of
the expected state, while the silicon-creator `epmp_state_check` instead
compares `mseccfg` word-for-word against the expected state (and
requires `mseccfgh = 0`), so it enforces the fixed values only insofar
as the expected state encodes them. -/
theorem epmp_check_fixed_bits_vs_state_check_word_compare :
    (∀ (s : rt_epmp_state_t) (c : Csrs), epmp_check s c = kEpmpOk →
      Nat.testBit (c csr_reg.MSECCFG) EPMP_MSECCFG_RLB = true ∧
      Nat.testBit (c csr_reg.MSECCFG) EPMP_MSECCFG_MML = false ∧
      Nat.testBit (c csr_reg.MSECCFG) EPMP_MSECCFG_MMWP = true) ∧
    (∀ (s : epmp_state_t) (c : Csrs), epmp_state_check s c = true →
      c csr_reg.MSECCFG = s.mseccfg ∧ c csr_reg.MSECCFGH = 0) := by
  constructor
  · intro s c h
    unfold epmp_check at h
    dsimp only at h
    split at h
    · next hcond =>
      simp only [Bool.and_eq_true] at hcond
      obtain ⟨⟨_, _⟩, hm⟩ := hcond
      simp only [Bool.and_eq_true, Bool.not_eq_true'] at hm
      exact ⟨hm.1.1, hm.1.2, hm.2⟩
    · exact absurd h (by simp [kEpmpError, kEpmpOk])
  · intro s c h
    have hm := (epmp_state_check_true_iff s c).mp h csr_reg.MSECCFG
    have hh := (epmp_state_check_true_iff s c).mp h csr_reg.MSECCFGH
    exact ⟨hm, hh⟩

/-- Witness for the amended C1 at concrete inputs. -/
theorem epmp_check_fixed_bits_vs_state_check_word_compare_witness :
    (Nat.testBit (csrFixedBits csr_reg.MSECCFG) EPMP_MSECCFG_RLB = true ∧
     Nat.testBit (csrFixedBits csr_reg.MSECCFG) EPMP_MSECCFG_MML = false ∧
     Nat.testBit (csrFixedBits csr_reg.MSECCFG) EPMP_MSECCFG_MMWP = true) ∧
    (csrZero csr_reg.MSECCFG = stZero.mseccfg ∧
     csrZero csr_reg.MSECCFGH = 0) :=
  ⟨epmp_check_fixed_bits_vs_state_check_word_compare.1 rtZero csrFixedBits
     (by decide),
   epmp_check_fixed_bits_vs_state_check_word_compare.2 stZero csrZero
     (by decide)⟩

/-! ## Claim C2 -/

/-- C2 counterexample: the `Mismatch` status code is not distinct from
all three configuration-time error codes — as an integer it coincides
with the `BadRegion` code of `epmp_entry_configure_result_t`. -/
theorem kEpmpSetMismatch_eq_BadRegion_code :
    kEpmpSetMismatch = kEpmpRegionConfigureBadRegion := rfl

/-- C2 amended: `kEpmpSetMismatch` is a fourth status code distinct from
`kEpmpSetOk`, `kEpmpSetError` and `kEpmpSetBadArg` within its own
enumeration `epmp_set_result_t`, but it numerically collides with
`kEpmpRegionConfigureBadRegion` from the separate configure-result
enumeration; the silicon-creator verify (`epmp_state_check`) reports a
failed comparison by returning `false`, not by a `Mismatch` code. -/
theorem kEpmpSetMismatch_distinct_within_enum :
    kEpmpSetMismatch ≠ kEpmpSetOk ∧
    kEpmpSetMismatch ≠ kEpmpSetError ∧
    kEpmpSetMismatch ≠ kEpmpSetBadArg ∧
    kEpmpSetMismatch = kEpmpRegionConfigureBadRegion ∧
    epmp_state_check stZero csrBad = false := by
  decide

/-! ## Claim C6 -/

/-- Short names for permissions used in concrete witnesses. -/
def permA : epmp_permissions_t :=
  .kEpmpPermissionsUnlockedMachineAllUserNone

/-- Locked all-access permission used in concrete witnesses. -/
def permD : epmp_permissions_t :=
  .kEpmpPermissionsLockedMachineAllUserAll

/-- C6: every configuration operation called with an out-of-range entry
returns `BadArg` with the state untouched, and every rejected call
(`BadArg`, `BadRegion` or `Conflict`) leaves the state identical to the
state before the call. -/
theorem configure_out_of_range_and_atomic_failure
    (s : rt_epmp_state_t) (entry : Nat) (r : epmp_region_t)
    (p : epmp_permissions_t) :
    (kEpmpNumRegions ≤ entry →
      epmp_entry_configure_off s entry r p = (.BadArg, s) ∧
      epmp_entry_configure_tor s entry r p = (.BadArg, s) ∧
      epmp_entry_configure_na4 s entry r p = (.BadArg, s) ∧
      epmp_entry_configure_napot s entry r p = (.BadArg, s)) ∧
    ((epmp_entry_configure_off s entry r p).1 ≠ .Ok →
      (epmp_entry_configure_off s entry r p).2 = s) ∧
    ((epmp_entry_configure_tor s entry r p).1 ≠ .Ok →
      (epmp_entry_configure_tor s entry r p).2 = s) ∧
    ((epmp_entry_configure_na4 s entry r p).1 ≠ .Ok →
      (epmp_entry_configure_na4 s entry r p).2 = s) ∧
    ((epmp_entry_configure_napot s entry r p).1 ≠ .Ok →
      (epmp_entry_configure_napot s entry r p).2 = s) := by
  refine ⟨?_, ?_, ?_, ?_, ?_⟩
  · intro h
    refine ⟨?_, ?_, ?_, ?_⟩
    · unfold epmp_entry_configure_off
      rw [dif_pos h]
    · unfold epmp_entry_configure_tor
      rw [dif_pos h]
    · unfold epmp_entry_configure_na4
      rw [dif_pos h]
    · unfold epmp_entry_configure_napot
      rw [dif_pos h]
  · intro h
    unfold epmp_entry_configure_off at h ⊢
    split_ifs at h ⊢ <;> simp_all
  · intro h
    unfold epmp_entry_configure_tor at h ⊢
    split_ifs at h ⊢ <;> try simp_all
    all_goals (repeat' split at h) <;> simp_all
  · intro h
    unfold epmp_entry_configure_na4 at h ⊢
    split_ifs at h ⊢ <;> simp_all
  · intro h
    unfold epmp_entry_configure_napot at h ⊢
    split_ifs at h ⊢ <;> simp_all

/-- Witness for C6 at concrete inputs: entry 16 is rejected `BadArg` by
all four operations with the state untouched, and a conflicting TOR call
(entry 0 with nonzero start) leaves the state untouched. -/
theorem configure_out_of_range_and_atomic_failure_witness :
    (epmp_entry_configure_off rtZero 16 { start := 0, «end» := 0 } permA =
       (.BadArg, rtZero) ∧
     epmp_entry_configure_tor rtZero 16 { start := 0, «end» := 0 } permA =
       (.BadArg, rtZero) ∧
     epmp_entry_configure_na4 rtZero 16 { start := 0, «end» := 0 } permA =
       (.BadArg, rtZero) ∧
     epmp_entry_configure_napot rtZero 16 { start := 0, «end» := 0 } permA =
       (.BadArg, rtZero)) ∧
    (epmp_entry_configure_tor rtZero 0 { start := 4, «end» := 8 } permA).2 =
      rtZero :=
  ⟨(configure_out_of_range_and_atomic_failure rtZero 16
      { start := 0, «end» := 0 } permA).1 (by decide),
   (configure_out_of_range_and_atomic_failure rtZero 0
      { start := 4, «end» := 8 } permA).2.2.1 (by decide)⟩

/-! ## Claim C9 -/

/-- Step 1 of the worked TOR-stacking example: entry 0, `[0x00, 0x10)`. -/
def c9_step1 : epmp_entry_configure_result_t × rt_epmp_state_t :=
  epmp_entry_configure_tor rtZero 0 { start := 0x00, «end» := 0x10 } permA

/-- Step 2: entry 1, `[0x10, 0x20)`, stacked on entry 0. -/
def c9_step2 : epmp_entry_configure_result_t × rt_epmp_state_t :=
  epmp_entry_configure_tor c9_step1.2 1 { start := 0x10, «end» := 0x20 } permD

/-- Step 3: entry 2 disabled with a zero-length region. -/
def c9_step3 : epmp_entry_configure_result_t × rt_epmp_state_t :=
  epmp_entry_configure_off c9_step2.2 2 { start := 0x00, «end» := 0x00 } permA

/-- Step 4: entry 3, `[0x30, 0x40)`, an independent TOR region whose
start lands in the preceding (OFF) entry 2. -/
def c9_step4 : epmp_entry_configure_result_t × rt_epmp_state_t :=
  epmp_entry_configure_tor c9_step3.2 3 { start := 0x30, «end» := 0x40 } permD

/-- C9: the four-call sequence of the worked example succeeds at every
step and leaves the granularity-shifted address slots of entries 0-3 at
`0x04`, `0x08`, `0x0c` and `0x10`. -/
theorem tor_stack_example_addresses :
    c9_step1.1 = .Ok ∧ c9_step2.1 = .Ok ∧ c9_step3.1 = .Ok ∧
    c9_step4.1 = .Ok ∧
    c9_step4.2.pmpaddr ⟨0, by omega⟩ = 0x04 ∧
    c9_step4.2.pmpaddr ⟨1, by omega⟩ = 0x08 ∧
    c9_step4.2.pmpaddr ⟨2, by omega⟩ = 0x0c ∧
    c9_step4.2.pmpaddr ⟨3, by omega⟩ = 0x10 := by
  decide

/-! ## Claim C4 -/

/-- C4: full case analysis of `epmp_entry_configure_tor` for an in-range
entry. Entry 0 requires `start = 0` (writing `end` shifted into its own
slot, mode TOR) and otherwise conflicts. For a positive entry: a
preceding OFF entry gets `start` written into its address slot with its
configuration byte (permission/lock) untouched; a preceding TOR entry
must already store exactly the shifted `start`; every other preceding
mode is a `Conflict` that leaves the state unchanged. -/
theorem configure_tor_adjacency (s : rt_epmp_state_t) (entry : Nat)
    (r : epmp_region_t) (p : epmp_permissions_t) (he : entry < 16) :
    (entry = 0 →
      (r.start = 0 →
        epmp_entry_configure_tor s entry r p =
          (.Ok, { s with
            pmpaddr := Function.update s.pmpaddr ⟨entry, he⟩
              (r.«end» >>> addrShift),
            pmpcfg := Function.update s.pmpcfg ⟨entry, he⟩ (cfgByte 1 p) })) ∧
      (r.start ≠ 0 →
        epmp_entry_configure_tor s entry r p = (.Conflict, s))) ∧
    (0 < entry →
      (cfgMode (s.pmpcfg ⟨entry - 1, by omega⟩) = 0 →
        epmp_entry_configure_tor s entry r p =
          (.Ok, { s with
            pmpaddr := Function.update
              (Function.update s.pmpaddr ⟨entry - 1, by omega⟩
                (r.start >>> addrShift)) ⟨entry, he⟩
              (r.«end» >>> addrShift),
            pmpcfg := Function.update s.pmpcfg ⟨entry, he⟩ (cfgByte 1 p) })) ∧
      (cfgMode (s.pmpcfg ⟨entry - 1, by omega⟩) = 1 →
        (s.pmpaddr ⟨entry - 1, by omega⟩ = r.start >>> addrShift →
          epmp_entry_configure_tor s entry r p =
            (.Ok, { s with
              pmpaddr := Function.update s.pmpaddr ⟨entry, he⟩
                (r.«end» >>> addrShift),
              pmpcfg := Function.update s.pmpcfg ⟨entry, he⟩
                (cfgByte 1 p) })) ∧
        (s.pmpaddr ⟨entry - 1, by omega⟩ ≠ r.start >>> addrShift →
          epmp_entry_configure_tor s entry r p = (.Conflict, s))) ∧
      (cfgMode (s.pmpcfg ⟨entry - 1, by omega⟩) ≠ 0 →
        cfgMode (s.pmpcfg ⟨entry - 1, by omega⟩) ≠ 1 →
        epmp_entry_configure_tor s entry r p = (.Conflict, s))) := by
  have hne : ¬ kEpmpNumRegions ≤ entry := by
    simp only [kEpmpNumRegions]
    omega
  unfold epmp_entry_configure_tor
  rw [dif_neg hne]
  constructor
  · intro h0
    subst h0
    rw [dif_pos rfl]
    constructor
    · intro hs
      rw [if_pos hs]
    · intro hs
      rw [if_neg hs]
  · intro hpos
    have h0 : ¬ entry = 0 := by omega
    rw [dif_neg h0]
    refine ⟨?_, ?_, ?_⟩
    · intro hm
      rw [if_pos hm]
    · intro hm
      have hm0 : ¬ cfgMode (s.pmpcfg ⟨entry - 1, by omega⟩) = 0 := by
        rw [hm]
        omega
      constructor
      · intro ha
        rw [if_neg hm0, if_pos hm, if_pos ha]
      · intro ha
        rw [if_neg hm0, if_pos hm, if_neg ha]
    · intro hm0 hm1
      rw [if_neg hm0, if_neg hm1]

/-- Witness for C4 at concrete inputs: stacking entry 1 on a preceding
OFF entry succeeds and writes both boundary addresses; entry 0 with a
nonzero start conflicts. -/
theorem configure_tor_adjacency_witness :
    epmp_entry_configure_tor rtZero 1 { start := 0x10, «end» := 0x20 }
      permD =
      (.Ok, { rtZero with
        pmpaddr := Function.update
          (Function.update rtZero.pmpaddr ⟨0, by omega⟩ 0x04) ⟨1, by omega⟩
          0x08,
        pmpcfg := Function.update rtZero.pmpcfg ⟨1, by omega⟩
          (cfgByte 1 permD) }) ∧
    epmp_entry_configure_tor rtZero 0 { start := 0x10, «end» := 0x20 }
      permA = (.Conflict, rtZero) :=
  ⟨((configure_tor_adjacency rtZero 1 { start := 0x10, «end» := 0x20 }
      permD (by omega)).2 (by omega)).1 (by decide),
   ((configure_tor_adjacency rtZero 0 { start := 0x10, «end» := 0x20 }
      permA (by omega)).1 rfl).2 (by decide)⟩

/-! ## Configuration byte pack/unpack round trips -/

theorem cfgMode_cfgByte :
    ∀ p : epmp_permissions_t,
      cfgMode (cfgByte 0 p) = 0 ∧ cfgMode (cfgByte 1 p) = 1 ∧
      cfgMode (cfgByte 2 p) = 2 ∧ cfgMode (cfgByte 3 p) = 3 := by
  decide

theorem ofLRWX_cfgByte :
    ∀ p : epmp_permissions_t,
      ofLRWX (cfgLRWX (cfgByte 0 p)) = some p ∧
      ofLRWX (cfgLRWX (cfgByte 1 p)) = some p ∧
      ofLRWX (cfgLRWX (cfgByte 2 p)) = some p ∧
      ofLRWX (cfgLRWX (cfgByte 3 p)) = some p := by
  decide

/-! ## NAPOT encoding arithmetic -/

theorem napot_encode_facts (k m : Nat) (hk : 3 ≤ k) :
    (2 ^ k * m) >>> 2 ||| (2 ^ (k - 3) - 1) =
      2 ^ (k - 3 + 1) * m + (2 ^ (k - 3) - 1) ∧
    trailingOnes ((2 ^ k * m) >>> 2 ||| (2 ^ (k - 3) - 1)) = k - 3 ∧
    ((((2 ^ k * m) >>> 2 ||| (2 ^ (k - 3) - 1)) >>> (k - 3 + 1)) <<<
        (k - 3 + 1)) <<< 2 = 2 ^ k * m := by
  obtain ⟨j, rfl⟩ : ∃ j, k = j + 3 := ⟨k - 3, by omega⟩
  have hj : j + 3 - 3 = j := by omega
  rw [hj]
  have hshift : (2 ^ (j + 3) * m) >>> 2 = 2 ^ (j + 1) * m := by
    rw [Nat.shiftRight_eq_div_pow]
    have e1 : 2 ^ (j + 3) * m = 2 ^ 2 * (2 ^ (j + 1) * m) := by ring
    rw [e1, Nat.mul_div_cancel_left _ (by norm_num : 0 < 2 ^ 2)]
  have hlt : 2 ^ j - 1 < 2 ^ (j + 1) := by
    have h1 : 1 ≤ 2 ^ j := Nat.one_le_two_pow
    have h2 : 2 ^ (j + 1) = 2 * 2 ^ j := by rw [pow_succ]; ring
    omega
  have henc : (2 ^ (j + 3) * m) >>> 2 ||| (2 ^ j - 1) =
      2 ^ (j + 1) * m + (2 ^ j - 1) := by
    rw [hshift, two_pow_mul_lor_eq_add _ _ _ hlt]
  refine ⟨henc, ?_, ?_⟩
  · rw [henc, trailingOnes_two_pow_mul_add]
  · rw [henc]
    have hdiv : (2 ^ (j + 1) * m + (2 ^ j - 1)) >>> (j + 1) = m := by
      rw [Nat.shiftRight_eq_div_pow]
      rw [Nat.mul_add_div (Nat.pos_pow_of_pos _ (by norm_num)),
        Nat.div_eq_of_lt hlt, Nat.add_zero]
    rw [hdiv, Nat.shiftLeft_eq, Nat.shiftLeft_eq]
    ring

/-- The NAPOT region guard holds exactly when the span is a power of two
`2 ^ k` with `k ≥ 3` and start and end are aligned to it. -/
theorem napot_region_ok_iff (r : epmp_region_t) :
    napot_region_ok r = true ↔
      ∃ k, 3 ≤ k ∧ r.«end» - r.start = 2 ^ k ∧ r.start % 2 ^ k = 0 ∧
        r.«end» % 2 ^ k = 0 := by
  unfold napot_region_ok isPow2
  simp only [kEpmpGranularity, Bool.and_eq_true, decide_eq_true_eq,
    beq_iff_eq, bne_iff_ne, ne_eq, Bool.or_eq_true]
  constructor
  · rintro ⟨⟨⟨⟨h8, hne, hpow⟩, hs⟩, he⟩, _⟩
    refine ⟨Nat.log2 (r.«end» - r.start), ?_, hpow.symm, ?_, ?_⟩
    · have h38 : (2 : Nat) ^ 3 ≤ 2 ^ Nat.log2 (r.«end» - r.start) := by
        rw [hpow]
        exact h8
      exact (Nat.pow_le_pow_iff_right (by norm_num)).mp h38
    · rw [hpow]
      exact hs
    · rw [hpow]
      exact he
  · rintro ⟨k, hk, hsz, hs, he⟩
    rw [hsz]
    refine ⟨⟨⟨⟨?_, ?_, ?_⟩, hs⟩, he⟩, Or.inl trivial⟩
    · calc (8 : Nat) = 2 ^ 3 := by norm_num
        _ ≤ 2 ^ k := Nat.pow_le_pow_right (by norm_num) hk
    · exact Nat.pos_iff_ne_zero.mp (Nat.pos_pow_of_pos _ (by norm_num))
    · rw [Nat.log2_two_pow]

/-! ## Claim C7 -/

/-- C7: `configure_napot` demands a power-of-two span of at least eight
bytes with start and end aligned to the span (plus the granularity
alignment when the granularity is nonzero), failing `BadRegion`
otherwise; a successful call stores `(start >> shift) | onesmask` whose
trailing one-bits number exactly `log2 span - 3`, and decoding recovers
`start` and `end = start + span`. -/
theorem configure_napot_encoding (s : rt_epmp_state_t) (entry : Nat)
    (r : epmp_region_t) (p : epmp_permissions_t) (he : entry < 16) :
    (napot_region_ok r = false →
      epmp_entry_configure_napot s entry r p = (.BadRegion, s)) ∧
    (napot_region_ok r = true ↔
      ∃ k, 3 ≤ k ∧ r.«end» - r.start = 2 ^ k ∧ r.start % 2 ^ k = 0 ∧
        r.«end» % 2 ^ k = 0) ∧
    (∀ k, 3 ≤ k → r.«end» - r.start = 2 ^ k → r.start % 2 ^ k = 0 →
      (epmp_entry_configure_napot s entry r p).1 = .Ok ∧
      (epmp_entry_configure_napot s entry r p).2.pmpaddr ⟨entry, he⟩ =
        ((r.start >>> addrShift) ||| (2 ^ (k - 3) - 1)) ∧
      trailingOnes
        ((epmp_entry_configure_napot s entry r p).2.pmpaddr ⟨entry, he⟩) =
        Nat.log2 (r.«end» - r.start) - 3 ∧
      epmp_entry_decode (epmp_entry_configure_napot s entry r p).2 entry =
        some (r, p)) := by
  have hne : ¬ kEpmpNumRegions ≤ entry := by
    simp only [kEpmpNumRegions]
    omega
  refine ⟨?_, napot_region_ok_iff r, ?_⟩
  · intro hbad
    unfold epmp_entry_configure_napot
    rw [dif_neg hne, if_neg (by simp [hbad])]
  · intro k hk hsz hal
    have hkpos : 0 < 2 ^ k := Nat.pos_pow_of_pos _ (by norm_num)
    have hend : r.«end» = r.start + 2 ^ k := by omega
    have hok : napot_region_ok r = true := by
      rw [napot_region_ok_iff]
      refine ⟨k, hk, hsz, hal, ?_⟩
      rw [hend]
      simp [Nat.add_mod, hal]
    obtain ⟨m, hm⟩ : ∃ m, r.start = 2 ^ k * m :=
      ⟨r.start / 2 ^ k, (Nat.mul_div_cancel' (Nat.dvd_of_mod_eq_zero hal)).symm⟩
    have hmask : (r.«end» - r.start) / 8 - 1 = 2 ^ (k - 3) - 1 := by
      rw [hsz, (by norm_num : (8 : Nat) = 2 ^ 3), Nat.pow_div hk (by norm_num)]
    obtain ⟨henc, htr, hdec⟩ := napot_encode_facts k m hk
    unfold epmp_entry_configure_napot
    rw [dif_neg hne, if_pos hok]
    dsimp only
    have hpmp :
        (Function.update s.pmpaddr
          (⟨entry, by simp [kEpmpNumRegions] at hne; omega⟩ : Fin 16)
          ((r.start >>> addrShift) ||| ((r.«end» - r.start) / 8 - 1)))
          ⟨entry, he⟩ =
        (2 ^ k * m) >>> 2 ||| (2 ^ (k - 3) - 1) := by
      rw [Function.update_same, hmask, hm]
      rfl
    refine ⟨rfl, ?_, ?_, ?_⟩
    · rw [hpmp, hm]
      rfl
    · rw [hpmp, htr, hsz, Nat.log2_two_pow]
    · have hval : r.start >>> addrShift ||| (r.«end» - r.start) / 8 - 1 =
          (2 ^ k * m) >>> 2 ||| (2 ^ (k - 3) - 1) := by
        rw [hmask, hm]
        rfl
      have hlen : (1 : Nat) <<< (k - 3 + 3) = 2 ^ k := by
        rw [Nat.shiftLeft_eq, Nat.one_mul]
        congr 1
        omega
      unfold epmp_entry_decode
      rw [dif_neg hne]
      simp only [Function.update_same]
      rw [(ofLRWX_cfgByte p).2.2.2]
      simp only [(cfgMode_cfgByte p).2.2.2]
      norm_num
      rw [hval, htr, hdec, hlen, ← hm, ← hend]

/-- Witness for C7 at the header's worked example: entry 1, region
`[0x50, 0x58)` (span 8 = 2^3), encoded address `0x14`. -/
theorem configure_napot_encoding_witness :
    (epmp_entry_configure_napot rtZero 1 { start := 0x50, «end» := 0x58 }
       permD).1 = .Ok ∧
    (epmp_entry_configure_napot rtZero 1 { start := 0x50, «end» := 0x58 }
       permD).2.pmpaddr ⟨1, by omega⟩ =
      (((0x50 : Nat) >>> addrShift) ||| (2 ^ (3 - 3) - 1)) ∧
    trailingOnes
      ((epmp_entry_configure_napot rtZero 1 { start := 0x50, «end» := 0x58 }
         permD).2.pmpaddr ⟨1, by omega⟩) =
      Nat.log2 ((0x58 : Nat) - 0x50) - 3 ∧
    epmp_entry_decode
      (epmp_entry_configure_napot rtZero 1 { start := 0x50, «end» := 0x58 }
        permD).2 1 =
      some ({ start := 0x50, «end» := 0x58 }, permD) :=
  (configure_napot_encoding rtZero 1 { start := 0x50, «end» := 0x58 } permD
    (by omega)).2.2 3 (by omega) (by decide) (by decide)

/-! ## Claim C5 -/

theorem napot_config_roundtrip (s : rt_epmp_state_t) (entry : Nat)
    (r : epmp_region_t) (p : epmp_permissions_t) (he : entry < 16)
    (k : Nat) (hk : 3 ≤ k) (hsz : r.«end» - r.start = 2 ^ k)
    (hal : r.start % 2 ^ k = 0) :
    (epmp_entry_configure_napot s entry r p).1 = .Ok ∧
    epmp_entry_decode (epmp_entry_configure_napot s entry r p).2 entry =
      some (r, p) := by
  have hne : ¬ kEpmpNumRegions ≤ entry := by
    simp only [kEpmpNumRegions]
    omega
  have hkpos : 0 < 2 ^ k := Nat.pos_pow_of_pos _ (by norm_num)
  have hend : r.«end» = r.start + 2 ^ k := by omega
  have hok : napot_region_ok r = true := by
    rw [napot_region_ok_iff]
    refine ⟨k, hk, hsz, hal, ?_⟩
    rw [hend]
    simp [Nat.add_mod, hal]
  obtain ⟨m, hm⟩ : ∃ m, r.start = 2 ^ k * m :=
    ⟨r.start / 2 ^ k, (Nat.mul_div_cancel' (Nat.dvd_of_mod_eq_zero hal)).symm⟩
  have hmask : (r.«end» - r.start) / 8 - 1 = 2 ^ (k - 3) - 1 := by
    rw [hsz, (by norm_num : (8 : Nat) = 2 ^ 3), Nat.pow_div hk (by norm_num)]
  obtain ⟨henc, htr, hdec⟩ := napot_encode_facts k m hk
  unfold epmp_entry_configure_napot
  rw [dif_neg hne, if_pos hok]
  dsimp only
  have hval : r.start >>> addrShift ||| (r.«end» - r.start) / 8 - 1 =
      (2 ^ k * m) >>> 2 ||| (2 ^ (k - 3) - 1) := by
    rw [hmask, hm]
    rfl
  have hlen : (1 : Nat) <<< (k - 3 + 3) = 2 ^ k := by
    rw [Nat.shiftLeft_eq, Nat.one_mul]
    congr 1
    omega
  refine ⟨rfl, ?_⟩
  unfold epmp_entry_decode
  rw [dif_neg hne]
  simp only [Function.update_same]
  rw [(ofLRWX_cfgByte p).2.2.2]
  simp only [(cfgMode_cfgByte p).2.2.2]
  norm_num
  rw [hval, htr, hdec, hlen, ← hm, ← hend]

theorem addr_shift_roundtrip (a : Nat) (h : a % 4 = 0) :
    (a >>> addrShift) <<< 2 = a := by
  rw [Nat.shiftRight_eq_div_pow, Nat.shiftLeft_eq]
  unfold addrShift
  norm_num
  exact Nat.div_mul_cancel (by omega : (4 : Nat) ∣ a)

/-- C5 counterexample: the exact round-trip fails for a region that
satisfies the TOR preconditions but is not 4-byte aligned. Configuring
entry 0 as TOR over `[0, 5)` succeeds, yet decoding returns `[0, 4)`:
the bottom bits are lost by the hardware address shift. -/
theorem roundtrip_fails_unaligned :
    (epmp_entry_configure_tor rtZero 0 { start := 0, «end» := 5 }
       permA).1 = .Ok ∧
    epmp_entry_decode
      (epmp_entry_configure_tor rtZero 0 { start := 0, «end» := 5 }
        permA).2 0 =
      some ({ start := 0, «end» := 4 }, permA) ∧
    ({ start := 0, «end» := 4 } : epmp_region_t) ≠
      { start := 0, «end» := 5 } := by
  decide

/-- C5 amended: for every entry below 16 and every addressing mode, a
successful configuration decodes back to exactly the region and
permission that were configured, provided the region addresses are
4-byte aligned (automatic for NAPOT via span alignment; the raw claim
fails for unaligned OFF/TOR/NA4 addresses, which the hardware shift
cannot represent). For TOR the preceding-entry relationship required for
success is stated explicitly. -/
theorem configure_decode_roundtrip (s : rt_epmp_state_t) (entry : Nat)
    (r : epmp_region_t) (p : epmp_permissions_t) (he : entry < 16) :
    (r.start = r.«end» → r.start % 4 = 0 →
      (epmp_entry_configure_off s entry r p).1 = .Ok ∧
      epmp_entry_decode (epmp_entry_configure_off s entry r p).2 entry =
        some (r, p)) ∧
    (r.start % 4 = 0 → r.«end» % 4 = 0 →
      ((entry = 0 ∧ r.start = 0) ∨
       (0 < entry ∧ cfgMode (s.pmpcfg ⟨entry - 1, by omega⟩) = 0) ∨
       (0 < entry ∧ cfgMode (s.pmpcfg ⟨entry - 1, by omega⟩) = 1 ∧
         s.pmpaddr ⟨entry - 1, by omega⟩ = r.start >>> addrShift)) →
      (epmp_entry_configure_tor s entry r p).1 = .Ok ∧
      epmp_entry_decode (epmp_entry_configure_tor s entry r p).2 entry =
        some (r, p)) ∧
    (r.«end» - r.start = 4 → r.start % 4 = 0 →
      (epmp_entry_configure_na4 s entry r p).1 = .Ok ∧
      epmp_entry_decode (epmp_entry_configure_na4 s entry r p).2 entry =
        some (r, p)) ∧
    (∀ k, 3 ≤ k → r.«end» - r.start = 2 ^ k → r.start % 2 ^ k = 0 →
      (epmp_entry_configure_napot s entry r p).1 = .Ok ∧
      epmp_entry_decode (epmp_entry_configure_napot s entry r p).2 entry =
        some (r, p)) := by
  have hne : ¬ kEpmpNumRegions ≤ entry := by
    simp only [kEpmpNumRegions]
    omega
  refine ⟨?_, ?_, ?_, napot_config_roundtrip s entry r p he⟩
  · -- OFF
    intro h0 hs4
    unfold epmp_entry_configure_off
    rw [dif_neg hne, if_pos h0]
    dsimp only
    refine ⟨rfl, ?_⟩
    unfold epmp_entry_decode
    rw [dif_neg hne]
    simp only [Function.update_same]
    rw [(ofLRWX_cfgByte p).1]
    simp only [(cfgMode_cfgByte p).1]
    norm_num
    have hreg : ({
        start := (r.start >>> addrShift) <<< 2,
        «end» := (r.start >>> addrShift) <<< 2 } : epmp_region_t) = r := by
      rw [addr_shift_roundtrip _ hs4]
      nth_rewrite 2 [h0]
      rfl
    rw [hreg]
  · -- TOR
    intro hs4 he4 hrel
    have hend : (r.«end» >>> addrShift) <<< 2 = r.«end» :=
      addr_shift_roundtrip _ he4
    have hstart : (r.start >>> addrShift) <<< 2 = r.start :=
      addr_shift_roundtrip _ hs4
    rcases hrel with ⟨h0, hstart0⟩ | ⟨hpos, hmode⟩ | ⟨hpos, hmode, haddr⟩
    · subst h0
      unfold epmp_entry_configure_tor
      rw [dif_neg hne, dif_pos rfl, if_pos hstart0]
      dsimp only
      refine ⟨rfl, ?_⟩
      unfold epmp_entry_decode
      rw [dif_neg hne]
      simp only [Function.update_same]
      rw [(ofLRWX_cfgByte p).2.1]
      simp only [(cfgMode_cfgByte p).2.1]
      norm_num
      rw [hend]
      have hreg : ({ start := 0, «end» := r.«end» } : epmp_region_t) = r := by
        rw [← hstart0]
      rw [hreg]
    · have h0 : ¬ entry = 0 := by omega
      have hfin : (⟨entry - 1, by omega⟩ : Fin 16) ≠ ⟨entry, he⟩ := by
        simp only [ne_eq, Fin.mk.injEq]
        omega
      unfold epmp_entry_configure_tor
      rw [dif_neg hne, dif_neg h0, if_pos hmode]
      dsimp only
      refine ⟨rfl, ?_⟩
      unfold epmp_entry_decode
      rw [dif_neg hne]
      simp only [Function.update_same]
      rw [(ofLRWX_cfgByte p).2.1]
      simp only [(cfgMode_cfgByte p).2.1]
      norm_num
      rw [if_neg h0]
      rw [Function.update_noteq hfin, Function.update_same, hend, hstart]
    · have h0 : ¬ entry = 0 := by omega
      have hfin : (⟨entry - 1, by omega⟩ : Fin 16) ≠ ⟨entry, he⟩ := by
        simp only [ne_eq, Fin.mk.injEq]
        omega
      have hm0 : ¬ cfgMode (s.pmpcfg ⟨entry - 1, by omega⟩) = 0 := by
        rw [hmode]
        omega
      unfold epmp_entry_configure_tor
      rw [dif_neg hne, dif_neg h0, if_neg hm0, if_pos hmode, if_pos haddr]
      dsimp only
      refine ⟨rfl, ?_⟩
      unfold epmp_entry_decode
      rw [dif_neg hne]
      simp only [Function.update_same]
      rw [(ofLRWX_cfgByte p).2.1]
      simp only [(cfgMode_cfgByte p).2.1]
      norm_num
      rw [if_neg h0]
      rw [Function.update_noteq hfin, haddr, hend, hstart]
  · -- NA4
    intro hlen hs4
    have hend4 : r.«end» = r.start + 4 := by omega
    unfold epmp_entry_configure_na4
    rw [dif_neg hne, if_neg (by simp [kEpmpGranularity]), if_pos hlen]
    dsimp only
    refine ⟨rfl, ?_⟩
    unfold epmp_entry_decode
    rw [dif_neg hne]
    simp only [Function.update_same]
    rw [(ofLRWX_cfgByte p).2.2.1]
    simp only [(cfgMode_cfgByte p).2.2.1]
    norm_num
    rw [addr_shift_roundtrip _ hs4]
    have hreg : ({ start := r.start, «end» := r.start + 4 } : epmp_region_t) =
        r := by
      rw [← hend4]
    rw [hreg]

/-- Witness for the amended C5: one concrete round trip per addressing
mode. -/
theorem configure_decode_roundtrip_witness :
    ((epmp_entry_configure_off rtZero 2 { start := 0x20, «end» := 0x20 }
        permA).1 = .Ok ∧
      epmp_entry_decode
        (epmp_entry_configure_off rtZero 2 { start := 0x20, «end» := 0x20 }
          permA).2 2 =
        some ({ start := 0x20, «end» := 0x20 }, permA)) ∧
    ((epmp_entry_configure_tor rtZero 0 { start := 0, «end» := 0x10 }
        permD).1 = .Ok ∧
      epmp_entry_decode
        (epmp_entry_configure_tor rtZero 0 { start := 0, «end» := 0x10 }
          permD).2 0 =
        some ({ start := 0, «end» := 0x10 }, permD)) ∧
    ((epmp_entry_configure_na4 rtZero 3 { start := 0x10, «end» := 0x14 }
        permA).1 = .Ok ∧
      epmp_entry_decode
        (epmp_entry_configure_na4 rtZero 3 { start := 0x10, «end» := 0x14 }
          permA).2 3 =
        some ({ start := 0x10, «end» := 0x14 }, permA)) ∧
    ((epmp_entry_configure_napot rtZero 1 { start := 0x50, «end» := 0x58 }
        permA).1 = .Ok ∧
      epmp_entry_decode
        (epmp_entry_configure_napot rtZero 1 { start := 0x50, «end» := 0x58 }
          permA).2 1 =
        some ({ start := 0x50, «end» := 0x58 }, permA)) :=
  ⟨(configure_decode_roundtrip rtZero 2 { start := 0x20, «end» := 0x20 }
      permA (by omega)).1 rfl (by decide),
   (configure_decode_roundtrip rtZero 0 { start := 0, «end» := 0x10 }
      permD (by omega)).2.1 (by decide) (by decide) (Or.inl ⟨rfl, rfl⟩),
   (configure_decode_roundtrip rtZero 3 { start := 0x10, «end» := 0x14 }
      permA (by omega)).2.2.1 (by decide) (by decide),
   (configure_decode_roundtrip rtZero 1 { start := 0x50, «end» := 0x58 }
      permA (by omega)).2.2.2 3 (by omega) (by decide) (by decide)⟩

/-! ## Claim C8 -/

/-- C8: with a shadow state supplied and a word-aligned device address,
`epmp_unlock_test_status` is exactly the composition of
`configure_na4` on the reserved entry 6 of the shadow state with a
`CSR_WRITE` of the address register followed by a `CSR_SET_BITS` of the
configuration byte (address register first, as the mutation trace
records), finishing with an inline `epmp_state_check` of the resulting
shadow state against the updated registers; it returns `true` exactly
when that read-back comparison succeeds. A non-aligned address fails
up front without touching anything. -/
theorem epmp_unlock_test_status_composition (addr : Nat) (s : epmp_state_t)
    (c : Csrs) :
    (addr % 4 = 0 →
      epmp_unlock_test_status addr (some s) c =
        (epmp_state_check
            (epmp_state_configure_na4 s 6
              { start := addr, «end» := addr + 4 } kEpmpPermLockedReadWrite)
            (csrSetBits (csrWrite c (csr_reg.PMPADDR 6) (addr / 4))
              (csr_reg.PMPCFG 1)
              ((kEpmpModeNa4 ||| kEpmpPermLockedReadWrite) <<< ((6 % 4) * 8))),
         some (epmp_state_configure_na4 s 6
           { start := addr, «end» := addr + 4 } kEpmpPermLockedReadWrite),
         csrSetBits (csrWrite c (csr_reg.PMPADDR 6) (addr / 4))
           (csr_reg.PMPCFG 1)
           ((kEpmpModeNa4 ||| kEpmpPermLockedReadWrite) <<< ((6 % 4) * 8)),
         [csr_op.write (csr_reg.PMPADDR 6) (addr / 4),
          csr_op.setBits (csr_reg.PMPCFG 1)
            ((kEpmpModeNa4 ||| kEpmpPermLockedReadWrite) <<< ((6 % 4) * 8))])) ∧
    (addr % 4 ≠ 0 →
      epmp_unlock_test_status addr (some s) c = (false, some s, c, [])) := by
  constructor
  · intro hal
    unfold epmp_unlock_test_status
    rw [if_neg (by omega)]
  · intro hal
    unfold epmp_unlock_test_status
    rw [if_pos hal]

/-- Witness for C8 at the concrete DV address `0x30000000` with an
all-zero shadow state and register file. -/
theorem epmp_unlock_test_status_composition_witness :
    epmp_unlock_test_status 0x30000000 (some stZero) csrZero =
      (epmp_state_check
          (epmp_state_configure_na4 stZero 6
            { start := 0x30000000, «end» := 0x30000000 + 4 }
            kEpmpPermLockedReadWrite)
          (csrSetBits (csrWrite csrZero (csr_reg.PMPADDR 6) (0x30000000 / 4))
            (csr_reg.PMPCFG 1)
            ((kEpmpModeNa4 ||| kEpmpPermLockedReadWrite) <<< ((6 % 4) * 8))),
       some (epmp_state_configure_na4 stZero 6
         { start := 0x30000000, «end» := 0x30000000 + 4 }
         kEpmpPermLockedReadWrite),
       csrSetBits (csrWrite csrZero (csr_reg.PMPADDR 6) (0x30000000 / 4))
         (csr_reg.PMPCFG 1)
         ((kEpmpModeNa4 ||| kEpmpPermLockedReadWrite) <<< ((6 % 4) * 8)),
       [csr_op.write (csr_reg.PMPADDR 6) (0x30000000 / 4),
        csr_op.setBits (csr_reg.PMPCFG 1)
          ((kEpmpModeNa4 ||| kEpmpPermLockedReadWrite) <<< ((6 % 4) * 8))]) :=
  (epmp_unlock_test_status_composition 0x30000000 stZero csrZero).1
    (by decide)
